import Mathlib

/-!
Shallow embedding of the cloudflare-telegram-bot repository (Go) in Lean 4.

Strings are modelled as lists of characters (`Str`); Go `int` is modelled as
`Int`, with `Nat` used where the Go value is provably non-negative.
The Cloudflare backend is modelled as an explicit state (zones plus records);
the Telegram transport is modelled by returning the rendered reply instead of
sending it.
-/

set_option autoImplicit false

namespace CfDnsBot

/-- Strings are lists of characters. -/
abbrev Str := List Char

/-- Model of Go `strings.HasSuffix s suffix`. -/
def hasSuffix (s suffix : Str) : Bool := decide (suffix <:+ s)

/-- From `internal/usecase/dns_usecase.go` `ensureFullRecordName`:
if the record name already ends with the zone name return it unchanged;
if it is `"@"` or empty return the zone name; otherwise append `"." ++ zone`. -/
def ensureFullRecordName (recordName zoneName : Str) : Str :=
  if hasSuffix recordName zoneName then recordName
  else if recordName = ['@'] ∨ recordName = [] then zoneName
  else recordName ++ '.' :: zoneName

/-- From `internal/domain/dns.go`: a DNS record. `Priority` is a `*uint16`
in Go, modelled as `Option Nat`; `TTL` is a Go `int`, modelled as `Int`.
The `Created`/`Modified` timestamps are irrelevant to every claim and are
omitted from the embedding. -/
structure DNSRecord where
  id : Str
  zoneID : Str
  zoneName : Str
  name : Str
  type : Str
  content : Str
  ttl : Int
  proxied : Bool
  priority : Option Nat
deriving DecidableEq, Repr, Inhabited

/-- From `internal/domain/zone`-side of the model: a zone has an ID and a name. -/
structure Zone where
  id : Str
  name : Str
deriving DecidableEq, Repr, Inhabited

/-- From `internal/domain/errors.go`: the domain error taxonomy. -/
inductive DomainErr
  | recordNotFound
  | zoneNotFound
  | invalidRecord
  | invalidZone
  | duplicateRecord
  | unauthorized
deriving DecidableEq, Repr

/-- From `internal/handler/telegram/bot.go` `refreshZoneRecords`:
`recordsPerPage := 10`. -/
def recordsPerPage : Nat := 10

/-- From `refreshZoneRecords`:
`totalPages := (totalRecords + recordsPerPage - 1) / recordsPerPage;
if totalPages < 1 { totalPages = 1 }`. -/
def totalPagesOf (totalRecords : Nat) : Nat :=
  let tp := (totalRecords + recordsPerPage - 1) / recordsPerPage
  if tp < 1 then 1 else tp

/-- From `refreshZoneRecords`:
`if page < 0 { page = 0 }; if page >= totalPages { page = totalPages - 1 }`. -/
def clampPage (page : Int) (totalPages : Nat) : Int :=
  let p : Int := if page < 0 then 0 else page
  if p ≥ (totalPages : Int) then (totalPages : Int) - 1 else p

/-- From `refreshZoneRecords`: after clamping,
`startIdx := page * recordsPerPage; endIdx := min (startIdx+recordsPerPage)
totalRecords`, and the rendered rows are `records[startIdx:endIdx]`. -/
def pageRows (records : List DNSRecord) (page : Int) : List DNSRecord :=
  let clamped := clampPage page (totalPagesOf records.length)
  (records.drop (clamped.toNat * recordsPerPage)).take recordsPerPage

/-- From `internal/handler/telegram/bot.go` `showRecordDetailByIndex`:
re-lists the zone records (passed here as `records`), computes
`actualIndex := page*recordsPerPage + index`, replies "Record not found" when
`actualIndex < 0 || actualIndex >= len(records)`, and otherwise shows
`records[actualIndex]`. -/
def showRecordDetailByIndex (records : List DNSRecord) (page index : Int) :
    Except DomainErr DNSRecord :=
  let actualIndex := page * (recordsPerPage : Int) + index
  if h : actualIndex < 0 ∨ (records.length : Int) ≤ actualIndex then
    .error .recordNotFound
  else
    .ok (records.get ⟨actualIndex.toNat, by omega⟩)

/-- From `internal/handler/telegram/bot.go` `isAuthorized` together with
`NewBot`: the allow-list map is built from the configured slice of user IDs;
an empty map authorizes everyone, otherwise membership decides. -/
def isAuthorized (allowedIDs : List Int) (userID : Int) : Bool :=
  if allowedIDs.length = 0 then true
  else allowedIDs.contains userID

/-- From `internal/domain/dns.go` `RecordFilter`. -/
structure RecordFilter where
  name : Str
  type : Str
deriving DecidableEq, Repr

/-- The Cloudflare backend collaborator, modelled as explicit state: the
account's zones and all DNS records (each record carries its `zoneID`).
The repository treats it as a black-box CRUD store; per the spec it does not
enforce name uniqueness. -/
structure Backend where
  zones : List Zone
  records : List DNSRecord
deriving DecidableEq, Repr

/-- From `external_resource/cloudflare/client.go` `ListDNSRecords`: the name
and type filters are passed to the API only when non-empty; the API returns
the zone's records matching them exactly. -/
def matchesFilter (zoneID : Str) (f : RecordFilter) (r : DNSRecord) : Bool :=
  decide (r.zoneID = zoneID) &&
  (decide (f.name = []) || decide (r.name = f.name)) &&
  (decide (f.type = []) || decide (r.type = f.type))

/-- Backend record listing for a zone with a filter (see `matchesFilter`). -/
def listDNSRecords (st : Backend) (zoneID : Str) (f : RecordFilter) :
    List DNSRecord :=
  st.records.filter (matchesFilter zoneID f)

/-- From `external_resource/cloudflare/client.go` `GetZoneByName`: resolves a
zone name to the zone, or fails. -/
def getZoneByName (st : Backend) (name : Str) : Option Zone :=
  st.zones.find? (fun z => decide (z.name = name))

/-- From `internal/repository/dns_repository.go` `FindByName`: lists the
zone's records filtered by exact name and returns the first one, or
`ErrRecordNotFound` when none match. -/
def FindByName (st : Backend) (zoneID name : Str) : Except DomainErr DNSRecord :=
  match listDNSRecords st zoneID { name := name, type := [] } with
  | [] => .error .recordNotFound
  | r :: _ => .ok r

/-- From `internal/domain/dns.go` `RecordTypes`. -/
def RecordTypes : List Str :=
  ["A", "AAAA", "CNAME", "MX", "TXT", "NS", "SRV", "CAA"].map String.toList

/-- From `internal/domain/dns.go` `IsValidRecordType`. -/
def IsValidRecordType (recordType : Str) : Bool :=
  RecordTypes.contains recordType

/-- From `pkg/storage/interfaces.go` `Config`: only the default TTL is
relevant to the claims. -/
structure Config where
  defaultTTL : Int
deriving DecidableEq, Repr

/-- From `internal/usecase/interfaces.go` `CreateRecordInput`. -/
structure CreateRecordInput where
  zoneName : Str
  name : Str
  type : Str
  content : Str
  ttl : Int
  proxied : Bool
  priority : Option Nat
deriving DecidableEq, Repr

/-- From `internal/usecase/interfaces.go` `UpdateRecordInput`. -/
structure UpdateRecordInput where
  zoneName : Str
  recordID : Str
  name : Str
  type : Str
  content : Str
  ttl : Int
  proxied : Bool
  priority : Option Nat
deriving DecidableEq, Repr

/-- The ten ASCII digit characters. -/
def digitChars : List Char := ['0', '1', '2', '3', '4', '5', '6', '7', '8', '9']

/-- Fuel-based worker for `natDigits`; the fuel only serves termination and
is irrelevant once it exceeds the number. -/
def natDigitsAux (fuel n : Nat) : List Char :=
  match fuel with
  | 0 => []
  | fuel + 1 =>
    if n < 10 then [digitChars.getD n '0']
    else natDigitsAux fuel (n / 10) ++ [digitChars.getD (n % 10) '0']

/-- Decimal digits of a natural number, most significant first (the digits
produced by Go's `fmt.Sprintf("%d", n)` for `n ≥ 0`). -/
def natDigits (n : Nat) : List Char := natDigitsAux (n + 1) n

/-- Go `fmt.Sprintf("%d", i)` for an `int`. -/
def intDigits (i : Int) : List Char :=
  if i < 0 then '-' :: natDigits (-i).toNat else natDigits i.toNat

/-- The backend assigns an opaque fresh identifier on create; modelled as the
decimal rendering of the store size. -/
def freshID (st : Backend) : Str := natDigits st.records.length

/-- Model of Go `strings.Split s (string sep)` for a one-character separator
(the project's delimiter `":"`). -/
def splitOn (sep : Char) : Str → List Str
  | [] => [[]]
  | a :: as =>
    match splitOn sep as with
    | [] => [[]]
    | b :: bs => if a = sep then [] :: b :: bs else (a :: b) :: bs

/-- Model of Go `strings.Join parts (string sep)` for a one-character
separator. -/
def joinSep (sep : Char) : List Str → Str
  | [] => []
  | [x] => x
  | x :: y :: xs => x ++ sep :: joinSep sep (y :: xs)

/-- An ASCII decimal digit, as tested by `strconv`. -/
def isDigitChar (c : Char) : Bool := decide ('0' ≤ c) && decide (c ≤ '9')

/-- Decimal value of a digit string (the accumulator loop of
`strconv.ParseInt`). -/
def digitsVal (s : Str) : Nat := s.foldl (fun acc c => 10 * acc + (c.toNat - 48)) 0

/-- Model of Go `strconv.Atoi`: an optional sign followed by at least one
digit parses to the signed value; anything else is a syntax error (`none`). -/
def atoiOpt (s : Str) : Option Int :=
  match s with
  | [] => none
  | c :: rest =>
    if c = '+' then
      if rest ≠ [] ∧ rest.all isDigitChar then some (digitsVal rest : Int)
      else none
    else if c = '-' then
      if rest ≠ [] ∧ rest.all isDigitChar then some (-(digitsVal rest : Int))
      else none
    else if (c :: rest).all isDigitChar then some (digitsVal (c :: rest) : Int)
    else none

/-- `strconv.Atoi` with the error discarded, as the handlers do
(`page, _ := strconv.Atoi(...)`): syntax errors yield `0`. -/
def atoi (s : Str) : Int := (atoiOpt s).getD 0

/-- The `view_rec` callback action tag. -/
def viewRecTag : Str := "view_rec".toList

/-- From `refreshZoneRecords` (bot.go):
`callbackData := fmt.Sprintf("view_rec:%s:%d:%d", zoneName, page, i-startIdx)`;
when it exceeds 64 bytes,
`maxZoneLen := 64 - len(fmt.Sprintf("view_rec::%d:%d", page, i-startIdx)) - 1`
and the zone name is cut to `zoneName[:maxZoneLen]` provided
`maxZoneLen > 0 && len(zoneName) > maxZoneLen`. -/
def encodeViewRec (zoneName : Str) (page rowIdx : Int) : Str :=
  let callbackData :=
    viewRecTag ++ ':' :: (zoneName ++ ':' ::
      (intDigits page ++ ':' :: intDigits rowIdx))
  if 64 < callbackData.length then
    let maxZoneLen : Int :=
      64 - ((viewRecTag ++ ':' :: ':' ::
        (intDigits page ++ ':' :: intDigits rowIdx)).length : Int) - 1
    if 0 < maxZoneLen ∧ maxZoneLen < (zoneName.length : Int) then
      viewRecTag ++ ':' :: (zoneName.take maxZoneLen.toNat ++ ':' ::
        (intDigits page ++ ':' :: intDigits rowIdx))
    else callbackData
  else callbackData

/-- Modelled from the spec (§4.1), for comparison with `encodeViewRec`: when
the payload exceeds the 64-byte maximum, the zone-name component is truncated
from the right to the longest prefix of the zone name such that the resulting
payload still fits within 64 bytes. -/
def encodeViewRecSpec (zoneName : Str) (page rowIdx : Int) : Str :=
  let callbackData :=
    viewRecTag ++ ':' :: (zoneName ++ ':' ::
      (intDigits page ++ ':' :: intDigits rowIdx))
  if 64 < callbackData.length then
    viewRecTag ++ ':' ::
      (zoneName.take (64 - (callbackData.length - zoneName.length)) ++ ':' ::
        (intDigits page ++ ':' :: intDigits rowIdx))
  else callbackData

/-- From `handleCallback` (bot.go), the `view_rec` arm:
`parts := strings.Split(data, ":")`; when `parts[0] == "view_rec"` and
`len(parts) >= 4`, the zone name is `strings.Join(parts[1:len(parts)-2], ":")`
and the page and row index are `strconv.Atoi` of the last two components
(errors ignored). `none` models "no view_rec action dispatched". -/
def decodeViewRec (data : Str) : Option (Str × Int × Int) :=
  let parts := splitOn ':' data
  if parts.headD [] = viewRecTag ∧ 4 ≤ parts.length then
    some (joinSep ':' ((parts.drop 1).take (parts.length - 3)),
          atoi (parts.getD (parts.length - 2) []),
          atoi (parts.getD (parts.length - 1) []))
  else none

/-- Backend record creation (`client.CreateDNSRecord`): stores the record,
assigning it a fresh ID, and returns the created record. -/
def backendCreate (st : Backend) (record : DNSRecord) :
    DNSRecord × Backend :=
  let created := { record with id := freshID st }
  (created, { st with records := st.records ++ [created] })

/-- From `internal/usecase/dns_usecase.go` (CreateRecord/UpsertRecord):
`config, err := u.configStorage.Load(); if err == nil { if input.TTL == 0
{ input.TTL = config.DefaultTTL } }` — the default applies only when the
config loads and the caller supplied zero. -/
def effectiveTTL : Option Config → Int → Int
  | some cfg, ttl => if ttl = 0 then cfg.defaultTTL else ttl
  | none, ttl => ttl

/-- From `internal/usecase/dns_usecase.go` `CreateRecord`: validate the type,
resolve the zone, default the TTL from config when the input TTL is zero (and
config loads), fully-qualify the name, fail with `ErrDuplicateRecord` when
`FindByName` finds an existing record with that name, otherwise create. -/
def CreateRecord (st : Backend) (cfgLoad : Option Config)
    (input : CreateRecordInput) : Except DomainErr (DNSRecord × Backend) :=
  if IsValidRecordType input.type = false then .error .invalidRecord
  else
    match getZoneByName st input.zoneName with
    | none => .error .zoneNotFound
    | some zone =>
      let ttl := effectiveTTL cfgLoad input.ttl
      let fullRecordName := ensureFullRecordName input.name zone.name
      match FindByName st zone.id fullRecordName with
      | .ok _ => .error .duplicateRecord
      | .error _ =>
        let record : DNSRecord :=
          { id := [], zoneID := zone.id, zoneName := zone.name,
            name := fullRecordName, type := input.type,
            content := input.content, ttl := ttl,
            proxied := input.proxied, priority := input.priority }
        .ok (backendCreate st record)

/-- From `internal/usecase/dns_usecase.go` `GetRecord`: resolve the zone,
fully-qualify the record name, then find by exact qualified name. -/
def GetRecord (st : Backend) (zoneName recordName : Str) :
    Except DomainErr DNSRecord :=
  match getZoneByName st zoneName with
  | none => .error .zoneNotFound
  | some zone => FindByName st zone.id (ensureFullRecordName recordName zone.name)

/-- From `internal/handler/telegram/state.go`: the conversation steps. -/
inductive Step
  | none
  | selectZoneForList
  | selectZoneForCreate
  | selectZoneForManage
  | selectRecordType
  | inputRecordName
  | inputRecordContent
  | inputRecordTTL
  | inputRecordProxied
  | confirmCreate
  | selectRecordForEdit
  | selectRecordForDelete
  | editRecordContent
  | editRecordTTL
  | editRecordProxied
  | confirmDelete
deriving DecidableEq, Repr

/-- A wizard field value: the Go state stores `interface{}` values that are
strings, ints or bools, recovered with runtime casts. -/
inductive FieldValue
  | str (s : Str)
  | int (i : Int)
  | bool (b : Bool)
deriving DecidableEq, Repr

/-- From `internal/handler/telegram/state.go` `UserState`: the current step
and the data map (modelled as an association list where the most recent
binding for a key shadows older ones, exactly a map's lookup). The
`LastUpdated` expiry timestamp is irrelevant to the claims. -/
structure UserState where
  currentStep : Step
  data : List (Str × FieldValue)
deriving DecidableEq, Repr

/-- `StateManager.SetData`: store a value under a key. -/
def setData (st : UserState) (key : Str) (v : FieldValue) : UserState :=
  { st with data := (key, v) :: st.data }

/-- `StateManager.GetData`: look a key up (`none` models `exists = false`). -/
def getData (st : UserState) (key : Str) : Option FieldValue :=
  (st.data.find? (fun p => decide (p.1 = key))).map Prod.snd

/-- `StateManager.SetStep`. -/
def setStep (st : UserState) (s : Step) : UserState :=
  { st with currentStep := s }

/-- `StateManager.ClearState` followed by the lazy re-creation in `GetState`:
a fresh state at step none with no data. -/
def clearedState : UserState := ⟨Step.none, []⟩

/-- The reply rendered by `handleInputRecordTTL`: either the invalid-TTL
error re-prompt, or the step-6 proxied prompt echoing the accumulated
fields. -/
inductive Reply
  | invalidTTLPrompt
  | proxiedPrompt (zone recordType name content : Option FieldValue) (ttl : Int)
deriving DecidableEq, Repr

/-- From `internal/handler/telegram/bot.go` `handleInputRecordTTL`: parse the
typed TTL; on a parse error send "Invalid TTL" and return without touching
the state; otherwise store the TTL, advance to the proxied step and render
the step-6 prompt. -/
def handleInputRecordTTL (st : UserState) (ttlStr : Str) : UserState × Reply :=
  match atoiOpt ttlStr with
  | Option.none => (st, .invalidTTLPrompt)
  | some ttl =>
    let st1 := setData st "ttl".toList (.int ttl)
    let st2 := setStep st1 .inputRecordProxied
    (st2, .proxiedPrompt (getData st2 "zone".toList)
      (getData st2 "type".toList) (getData st2 "name".toList)
      (getData st2 "content".toList) ttl)

/-- From `internal/handler/telegram/bot.go` `startEditRecord`, after the
`GetRecord` fetch succeeded with `record`: store the edit context (zone,
record name, record ID, type and the record's current content, TTL and
proxied flag) into the wizard state. -/
def startEditRecord (st : UserState) (zoneName recordName : Str)
    (record : DNSRecord) : UserState :=
  let st1 := setData st "edit_zone".toList (.str zoneName)
  let st2 := setData st1 "edit_record_name".toList (.str recordName)
  let st3 := setData st2 "edit_record_id".toList (.str record.id)
  let st4 := setData st3 "edit_type".toList (.str record.type)
  let st5 := setData st4 "edit_current_content".toList (.str record.content)
  let st6 := setData st5 "edit_current_ttl".toList (.int record.ttl)
  setData st6 "edit_current_proxied".toList (.bool record.proxied)

/-- From `internal/handler/telegram/bot.go` `handleToggleProxied`: read the
stored edit context, negate the proxied flag, and issue one full-record
`UpdateRecord` call carrying all mutable fields; on success the stored
proxied value is refreshed. `none` models the runtime-cast panic on
missing/mistyped state. -/
def handleToggleProxied (st : UserState) :
    Option (UpdateRecordInput × UserState) :=
  match getData st "edit_zone".toList, getData st "edit_record_name".toList,
      getData st "edit_record_id".toList, getData st "edit_type".toList,
      getData st "edit_current_content".toList,
      getData st "edit_current_ttl".toList,
      getData st "edit_current_proxied".toList with
  | some (.str zoneName), some (.str recordName), some (.str recordID),
    some (.str recordType), some (.str currentContent),
    some (.int currentTTL), some (.bool currentProxied) =>
    let newProxied := !currentProxied
    some ({ zoneName := zoneName, recordID := recordID, name := recordName,
            type := recordType, content := currentContent,
            ttl := currentTTL, proxied := newProxied, priority := none },
          setData st "edit_current_proxied".toList (.bool newProxied))
  | _, _, _, _, _, _, _ => none

/-- From `internal/handler/telegram/bot.go` `handleEditRecordContent`: read
the stored edit context, overwrite only the content with the typed text, and
issue one full-record `UpdateRecord` call; on success the state is cleared. -/
def handleEditRecordContent (st : UserState) (content : Str) :
    Option (UpdateRecordInput × UserState) :=
  match getData st "edit_zone".toList, getData st "edit_record_name".toList,
      getData st "edit_record_id".toList, getData st "edit_type".toList,
      getData st "edit_current_ttl".toList,
      getData st "edit_current_proxied".toList with
  | some (.str zoneName), some (.str recordName), some (.str recordID),
    some (.str recordType), some (.int currentTTL),
    some (.bool currentProxied) =>
    some ({ zoneName := zoneName, recordID := recordID, name := recordName,
            type := recordType, content := content,
            ttl := currentTTL, proxied := currentProxied, priority := none },
          clearedState)
  | _, _, _, _, _, _ => none

/-- From `internal/handler/telegram/bot.go` `handleEditRecordTTL`: parse the
typed TTL (replying "Invalid TTL value" on a parse error, issuing no update),
read the stored edit context, overwrite only the TTL, and issue one
full-record `UpdateRecord` call; on success the state is cleared. -/
def handleEditRecordTTL (st : UserState) (ttlStr : Str) :
    Option (UpdateRecordInput × UserState) :=
  match atoiOpt ttlStr with
  | Option.none => none
  | some ttl =>
    match getData st "edit_zone".toList, getData st "edit_record_name".toList,
        getData st "edit_record_id".toList, getData st "edit_type".toList,
        getData st "edit_current_content".toList,
        getData st "edit_current_proxied".toList with
    | some (.str zoneName), some (.str recordName), some (.str recordID),
      some (.str recordType), some (.str currentContent),
      some (.bool currentProxied) =>
      some ({ zoneName := zoneName, recordID := recordID, name := recordName,
              type := recordType, content := currentContent,
              ttl := ttl, proxied := currentProxied, priority := none },
            clearedState)
    | _, _, _, _, _, _ => none

/-- Concrete zone `example.com` for witnesses. -/
def exampleZone : Zone := ⟨"zone1".toList, "example.com".toList⟩

/-- Concrete backend holding only `example.com`, with no records. -/
def exampleBackend : Backend := ⟨[exampleZone], []⟩

/-- The spec's create scenario input:
`{zone: example.com, name: www, type: A, content: 192.168.1.1, ttl: 0,
proxied: true}`. -/
def exampleInput : CreateRecordInput :=
  ⟨"example.com".toList, "www".toList, "A".toList, "192.168.1.1".toList,
   0, true, none⟩

/-- The record `CreateRecord` produces for `exampleInput` on
`exampleBackend` with default TTL 300. -/
def exampleCreated : DNSRecord :=
  ⟨"0".toList, "zone1".toList, "example.com".toList,
   "www.example.com".toList, "A".toList, "192.168.1.1".toList,
   300, true, none⟩

/-- The backend after that create. -/
def exampleBackendAfter : Backend := ⟨[exampleZone], [exampleCreated]⟩

end CfDnsBot

namespace CfDnsBot

theorem hasSuffix_eq_true_iff (s suffix : Str) :
    hasSuffix s suffix = true ↔ suffix <:+ s := by
  simp [hasSuffix]

theorem hasSuffix_refl (s : Str) : hasSuffix s s = true := by
  simp [hasSuffix]

theorem hasSuffix_append (pre s : Str) : hasSuffix (pre ++ s) s = true := by
  simp [hasSuffix]

/-- C2: `ensureFullRecordName` is idempotent: applying it twice with the same
zone yields the same result as applying it once, for every name and zone. -/
theorem ensureFullRecordName_idempotent (name zone : Str) :
    ensureFullRecordName (ensureFullRecordName name zone) zone =
      ensureFullRecordName name zone := by
  unfold ensureFullRecordName
  by_cases h1 : hasSuffix name zone = true
  · simp [h1]
  · simp only [h1, Bool.false_eq_true, if_false]
    by_cases h2 : name = ['@'] ∨ name = []
    · simp [h2, hasSuffix_refl]
    · simp only [h2, if_false]
      have : hasSuffix (name ++ '.' :: zone) zone = true := by
        have := hasSuffix_append (name ++ ['.']) zone
        simpa using this
      simp [this]

/-- C10: when the configured allow-list is empty every user is authorized;
when it is non-empty a user is authorized iff their ID is in the list. -/
theorem isAuthorized_spec (allowedIDs : List Int) (userID : Int) :
    (allowedIDs = [] → isAuthorized allowedIDs userID = true) ∧
    (allowedIDs ≠ [] →
      (isAuthorized allowedIDs userID = true ↔ userID ∈ allowedIDs)) := by
  constructor
  · intro h; simp [isAuthorized, h]
  · intro h
    have hlen : allowedIDs.length ≠ 0 := by
      simpa [List.length_eq_zero] using h
    simp [isAuthorized, hlen]

/-- Witness for C10 at concrete inputs: the list `[7]` is non-empty, user 7 is
authorized and membership holds. -/
theorem isAuthorized_spec_witness :
    ([7] : List Int) ≠ [] ∧ (isAuthorized [7] 7 = true ↔ (7 : Int) ∈ [7]) :=
  ⟨by decide, (isAuthorized_spec [7] 7).2 (by decide)⟩

theorem totalPagesOf_eq (n : Nat) : totalPagesOf n = max 1 ((n + 9) / 10) := by
  show (if (n + 10 - 1) / 10 < 1 then 1 else (n + 10 - 1) / 10) = _
  split <;> omega

theorem one_le_totalPagesOf (n : Nat) : 1 ≤ totalPagesOf n := by
  rw [totalPagesOf_eq]; omega

theorem clampPage_eq (page : Int) (tp : Nat) :
    clampPage page tp =
      if (if page < 0 then 0 else page) ≥ (tp : Int) then (tp : Int) - 1
      else if page < 0 then 0 else page := rfl

theorem clampPage_bounds (page : Int) (tp : Nat) (h : 1 ≤ tp) :
    0 ≤ clampPage page tp ∧ clampPage page tp ≤ (tp : Int) - 1 := by
  rw [clampPage_eq]
  split_ifs <;> omega

theorem head?_take_ten (l : List DNSRecord) : (l.take 10).head? = l.head? := by
  cases l <;> rfl

/-- C3: the pagination in `refreshZoneRecords` computes
`totalPages = max 1 (ceil (n/10))`, clamps the requested page into
`[0, totalPages-1]` (page 99 of a 25-item list clamps to page 2), and
page 0 row 0 of a 25-item list is item 0 of the original list. -/
theorem refreshZoneRecords_pagination (n : Nat) (page : Int)
    (records : List DNSRecord) (h : records.length = 25) :
    totalPagesOf n = max 1 ((n + 9) / 10) ∧
    0 ≤ clampPage page (totalPagesOf n) ∧
    clampPage page (totalPagesOf n) ≤ (totalPagesOf n : Int) - 1 ∧
    clampPage 99 (totalPagesOf 25) = 2 ∧
    (pageRows records 0).head? = records.head? := by
  have htp := one_le_totalPagesOf n
  refine ⟨totalPagesOf_eq n, (clampPage_bounds page _ htp).1,
    (clampPage_bounds page _ htp).2, by decide, ?_⟩
  have hc : clampPage 0 (totalPagesOf 25) = 0 := by decide
  simp only [pageRows, h, hc]
  simpa [recordsPerPage] using head?_take_ten records

/-- Witness for C3: the pagination facts applied to a concrete 25-item list
at `n = 7`, requested page `-5`. -/
theorem refreshZoneRecords_pagination_witness :
    (pageRows (List.replicate 25 default) 0).head? =
      (List.replicate 25 (default : DNSRecord)).head? :=
  (refreshZoneRecords_pagination 7 (-5) (List.replicate 25 default)
    (by simp)).2.2.2.2

/-- C4: resolving a page address re-lists the zone's records; it fails with a
user-visible RecordNotFound outcome whenever `page*pageSize + rowIndex` is
out of range, and otherwise shows exactly
`records[page*pageSize + rowIndex]`. -/
theorem showRecordDetailByIndex_spec (records : List DNSRecord)
    (page rowIndex : Nat) :
    (records.length ≤ page * recordsPerPage + rowIndex →
      showRecordDetailByIndex records page rowIndex =
        .error .recordNotFound) ∧
    (∀ hlt : page * recordsPerPage + rowIndex < records.length,
      showRecordDetailByIndex records page rowIndex =
        .ok (records.get ⟨page * recordsPerPage + rowIndex, hlt⟩)) := by
  constructor
  · intro hge
    have hc : ((page : Int) * (recordsPerPage : Nat) + (rowIndex : Int) < 0 ∨
        ((records.length : Int)) ≤
          (page : Int) * (recordsPerPage : Nat) + (rowIndex : Int)) := by
      right; exact_mod_cast Int.ofNat_le.mpr hge
    show dite _ _ _ = _
    rw [dif_pos hc]
  · intro hlt
    have hc : ¬((page : Int) * (recordsPerPage : Nat) + (rowIndex : Int) < 0 ∨
        ((records.length : Int)) ≤
          (page : Int) * (recordsPerPage : Nat) + (rowIndex : Int)) := by
      omega
    show dite _ _ _ = _
    rw [dif_neg hc]
    exact congrArg Except.ok
      (congrArg records.get (Fin.ext (by push_cast; omega)))

theorem getZoneByName_append_records (st : Backend) (rs : List DNSRecord)
    (name : Str) :
    getZoneByName { st with records := rs } name = getZoneByName st name := rfl

theorem FindByName_ok_of_mem (st : Backend) (zoneID name : Str)
    (r : DNSRecord) (hmem : r ∈ st.records)
    (hm : matchesFilter zoneID ⟨name, []⟩ r = true) :
    ∃ r', FindByName st zoneID name = .ok r' := by
  unfold FindByName
  cases hl : listDNSRecords st zoneID ⟨name, []⟩ with
  | nil =>
    exfalso
    have : ∀ a ∈ st.records, ¬(matchesFilter zoneID ⟨name, []⟩ a = true) :=
      List.filter_eq_nil_iff.mp hl
    exact this r hmem hm
  | cons r' t => exact ⟨r', rfl⟩

/-- Inversion of a successful `CreateRecord`: the type was valid, the zone
resolved, no record with the fully-qualified name existed, and the result is
the input record (TTL defaulted, name qualified) appended to the store. -/
theorem CreateRecord_ok_inv (st : Backend) (cfg : Option Config)
    (input : CreateRecordInput) (rec : DNSRecord) (st' : Backend)
    (hok : CreateRecord st cfg input = .ok (rec, st')) :
    IsValidRecordType input.type = true ∧
    ∃ zone, getZoneByName st input.zoneName = some zone ∧
      (∃ e, FindByName st zone.id
        (ensureFullRecordName input.name zone.name) = .error e) ∧
      rec = { id := freshID st, zoneID := zone.id, zoneName := zone.name,
              name := ensureFullRecordName input.name zone.name,
              type := input.type, content := input.content,
              ttl := effectiveTTL cfg input.ttl,
              proxied := input.proxied, priority := input.priority } ∧
      st' = { st with records := st.records ++ [rec] } := by
  unfold CreateRecord at hok
  split at hok
  next => exact absurd hok (by simp)
  next hv =>
    split at hok
    next => exact absurd hok (by simp)
    next zone hz =>
      simp only [] at hok
      split at hok
      next r hf => exact absurd hok (by simp)
      next e hf =>
        simp only [backendCreate, Except.ok.injEq, Prod.mk.injEq] at hok
        obtain ⟨h1, h2⟩ := hok
        refine ⟨by simpa using hv, zone, hz, ⟨e, hf⟩, h1.symm, ?_⟩
        rw [← h2, ← h1]

/-- C1: `CreateRecord` checks for an existing record with the fully-qualified
name and fails with `ErrDuplicateRecord` when one is found; consequently, a
second call whose `(zoneName, name, type, content)` equal a previously
successful call's fails with `ErrDuplicateRecord`. -/
theorem CreateRecord_duplicate_check (st : Backend) (cfg cfg' : Option Config)
    (input input' : CreateRecordInput) :
    (∀ zone r, IsValidRecordType input.type = true →
      getZoneByName st input.zoneName = some zone →
      FindByName st zone.id
        (ensureFullRecordName input.name zone.name) = .ok r →
      CreateRecord st cfg input = .error .duplicateRecord) ∧
    (∀ rec st', input'.zoneName = input.zoneName → input'.name = input.name →
      input'.type = input.type → input'.content = input.content →
      CreateRecord st cfg input = .ok (rec, st') →
      CreateRecord st' cfg' input' = .error .duplicateRecord) := by
  constructor
  · intro zone r hv hz hf
    simp [CreateRecord, hv, hz, hf]
  · intro rec st' hzn hname htype _ hok
    obtain ⟨hv, zone, hz, _, hrec, hst'⟩ := CreateRecord_ok_inv st cfg input rec st' hok
    have hv' : IsValidRecordType input'.type = true := by rw [htype]; exact hv
    have hz' : getZoneByName st' input'.zoneName = some zone := by
      rw [hzn, hst', getZoneByName_append_records]; exact hz
    have hmem : rec ∈ st'.records := by rw [hst']; simp
    have hm : matchesFilter zone.id
        ⟨ensureFullRecordName input.name zone.name, []⟩ rec = true := by
      rw [hrec]; simp [matchesFilter]
    obtain ⟨r', hf'⟩ := FindByName_ok_of_mem st' zone.id
      (ensureFullRecordName input.name zone.name) rec hmem hm
    rw [← hname] at hf'
    simp [CreateRecord, hv', hz', hf']

/-- Witness for C1: on the concrete backend holding only `example.com`, the
first create of `www` A `192.168.1.1` succeeds, and the identical second call
fails with `ErrDuplicateRecord`. -/
theorem CreateRecord_duplicate_check_witness :
    CreateRecord exampleBackendAfter (some ⟨300⟩) exampleInput =
      .error .duplicateRecord :=
  (CreateRecord_duplicate_check exampleBackend (some ⟨300⟩) (some ⟨300⟩)
    exampleInput exampleInput).2 exampleCreated exampleBackendAfter
    rfl rfl rfl rfl (by rfl)

/-- C7: a successful `CreateRecord` with zero input TTL and a loaded config
produces a record whose TTL is the configured default and whose name is the
fully-qualified input name. -/
theorem CreateRecord_defaults_ttl_and_qualifies_name (st : Backend)
    (cfg : Config) (input : CreateRecordInput) (zone : Zone)
    (rec : DNSRecord) (st' : Backend)
    (hz : getZoneByName st input.zoneName = some zone)
    (hok : CreateRecord st (some cfg) input = .ok (rec, st'))
    (h0 : input.ttl = 0) :
    rec.ttl = cfg.defaultTTL ∧
    rec.name = ensureFullRecordName input.name zone.name := by
  obtain ⟨_, zone2, hz2, _, hrec, _⟩ :=
    CreateRecord_ok_inv st (some cfg) input rec st' hok
  rw [hz] at hz2
  cases hz2
  rw [hrec]
  exact ⟨by simp [effectiveTTL, h0], rfl⟩

/-- Witness for C7: the spec's scenario — creating `www` A `192.168.1.1` with
TTL 0 and configured default 300 in `example.com` yields a record with
TTL 300 and name `www.example.com`. -/
theorem CreateRecord_defaults_witness :
    exampleCreated.ttl = (⟨300⟩ : Config).defaultTTL ∧
    exampleCreated.name =
      ensureFullRecordName exampleInput.name exampleZone.name :=
  CreateRecord_defaults_ttl_and_qualifies_name exampleBackend ⟨300⟩
    exampleInput exampleZone exampleCreated exampleBackendAfter rfl (by rfl)
    rfl

theorem splitOn_cons (sep a : Char) (as : Str) :
    splitOn sep (a :: as) =
      match splitOn sep as with
      | [] => [[]]
      | b :: bs => if a = sep then [] :: b :: bs else (a :: b) :: bs := rfl

theorem splitOn_ne_nil (sep : Char) (s : Str) : splitOn sep s ≠ [] := by
  cases s with
  | nil => simp [splitOn]
  | cons a as =>
    rw [splitOn_cons]
    cases h : splitOn sep as with
    | nil => simp
    | cons b bs =>
      dsimp only
      split <;> simp

theorem splitOn_append_sep (sep : Char) (u v : Str) :
    splitOn sep (u ++ sep :: v) = splitOn sep u ++ splitOn sep v := by
  induction u with
  | nil =>
    simp only [List.nil_append]
    rw [splitOn_cons]
    cases h : splitOn sep v with
    | nil => exact absurd h (splitOn_ne_nil sep v)
    | cons b bs => simp [splitOn]
  | cons a u ih =>
    cases h : splitOn sep u with
    | nil => exact absurd h (splitOn_ne_nil sep u)
    | cons b bs =>
      show splitOn sep (a :: (u ++ sep :: v)) =
        splitOn sep (a :: u) ++ splitOn sep v
      rw [splitOn_cons, splitOn_cons, ih, h]
      simp only [List.cons_append]
      split <;> simp

theorem splitOn_eq_single (sep : Char) (u : Str) (h : sep ∉ u) :
    splitOn sep u = [u] := by
  induction u with
  | nil => rfl
  | cons a u ih =>
    have ha : ¬(a = sep) := fun e => h (e ▸ List.mem_cons_self a u)
    have hu : sep ∉ u := fun hm => h (List.mem_cons_of_mem a hm)
    rw [splitOn_cons, ih hu]
    simp [ha]

theorem joinSep_splitOn (sep : Char) (s : Str) :
    joinSep sep (splitOn sep s) = s := by
  induction s with
  | nil => rfl
  | cons a s ih =>
    rw [splitOn_cons]
    cases h : splitOn sep s with
    | nil => exact absurd h (splitOn_ne_nil sep s)
    | cons b bs =>
      rw [h] at ih
      by_cases ha : a = sep
      · subst ha
        simp only [if_pos rfl, joinSep]
        rw [ih]
        simp
      · dsimp only
        rw [if_neg ha]
        cases bs with
        | nil =>
          simp only [joinSep] at ih ⊢
          rw [ih]
        | cons c cs =>
          simp only [joinSep] at ih ⊢
          rw [← ih]
          simp

theorem digit_getD_toNat (d : Nat) (h : d < 10) :
    (digitChars.getD d '0').toNat = 48 + d := by
  interval_cases d <;> decide

theorem digit_getD_isDigit (d : Nat) (h : d < 10) :
    isDigitChar (digitChars.getD d '0') = true := by
  interval_cases d <;> decide

theorem natDigitsAux_fuel_irrel (n : Nat) : ∀ f₁ f₂, n < f₁ → n < f₂ →
    natDigitsAux f₁ n = natDigitsAux f₂ n := by
  induction n using Nat.strong_induction_on with
  | _ n ih =>
    intro f₁ f₂ h₁ h₂
    obtain ⟨g₁, rfl⟩ : ∃ g, f₁ = g + 1 := ⟨f₁ - 1, by omega⟩
    obtain ⟨g₂, rfl⟩ : ∃ g, f₂ = g + 1 := ⟨f₂ - 1, by omega⟩
    by_cases hn : n < 10
    · simp [natDigitsAux, hn]
    · simp only [natDigitsAux, if_neg hn]
      have hd : n / 10 < n := Nat.div_lt_self (by omega) (by omega)
      rw [ih (n / 10) hd g₁ g₂ (by omega) (by omega)]

theorem natDigits_lt_ten (n : Nat) (h : n < 10) :
    natDigits n = [digitChars.getD n '0'] := by
  simp [natDigits, natDigitsAux, h]

theorem natDigits_ge_ten (n : Nat) (h : 10 ≤ n) :
    natDigits n = natDigits (n / 10) ++ [digitChars.getD (n % 10) '0'] := by
  show natDigitsAux (n + 1) n = _
  have hn : ¬ n < 10 := by omega
  simp only [natDigitsAux, if_neg hn]
  congr 1
  have hd : n / 10 < n := Nat.div_lt_self (by omega) (by omega)
  exact natDigitsAux_fuel_irrel (n / 10) n (n / 10 + 1) (by omega) (by omega)

theorem mem_natDigits_isDigit (n : Nat) :
    ∀ c ∈ natDigits n, isDigitChar c = true := by
  induction n using Nat.strong_induction_on with
  | _ n ih =>
    by_cases h : n < 10
    · rw [natDigits_lt_ten n h]
      intro c hc
      rw [List.mem_singleton] at hc
      subst hc
      exact digit_getD_isDigit n h
    · rw [natDigits_ge_ten n (by omega)]
      intro c hc
      rw [List.mem_append] at hc
      rcases hc with hc | hc
      · exact ih (n / 10) (Nat.div_lt_self (by omega) (by omega)) c hc
      · rw [List.mem_singleton] at hc
        subst hc
        exact digit_getD_isDigit (n % 10) (Nat.mod_lt _ (by omega))

theorem natDigits_ne_nil (n : Nat) : natDigits n ≠ [] := by
  by_cases h : n < 10
  · rw [natDigits_lt_ten n h]; simp
  · rw [natDigits_ge_ten n (by omega)]; simp

theorem digitsVal_snoc (l : Str) (c : Char) :
    digitsVal (l ++ [c]) = 10 * digitsVal l + (c.toNat - 48) := by
  simp [digitsVal, List.foldl_append]

theorem digitsVal_natDigits (n : Nat) : digitsVal (natDigits n) = n := by
  induction n using Nat.strong_induction_on with
  | _ n ih =>
    by_cases h : n < 10
    · rw [natDigits_lt_ten n h]
      show 10 * 0 + ((digitChars.getD n '0').toNat - 48) = n
      rw [digit_getD_toNat n h]
      omega
    · rw [natDigits_ge_ten n (by omega), digitsVal_snoc,
        ih (n / 10) (Nat.div_lt_self (by omega) (by omega)),
        digit_getD_toNat (n % 10) (Nat.mod_lt _ (by omega))]
      omega

theorem allDigits_natDigits (n : Nat) : (natDigits n).all isDigitChar = true :=
  List.all_eq_true.mpr (fun c hc => mem_natDigits_isDigit n c hc)

theorem isDigitChar_ne_signs (c : Char) (h : isDigitChar c = true) :
    c ≠ ':' ∧ c ≠ '+' ∧ c ≠ '-' := by
  refine ⟨?_, ?_, ?_⟩ <;> intro he <;> rw [he] at h <;>
    exact absurd h (by decide)

theorem colon_not_mem_natDigits (n : Nat) : ':' ∉ natDigits n :=
  fun h => absurd (mem_natDigits_isDigit n ':' h) (by decide)

theorem colon_not_mem_intDigits (i : Int) : ':' ∉ intDigits i := by
  rw [intDigits]
  split
  · intro hmem
    rcases List.mem_cons.mp hmem with h | h
    · exact absurd h (by decide)
    · exact colon_not_mem_natDigits _ h
  · exact colon_not_mem_natDigits _

theorem atoiOpt_minus_digits (c : Char) (t : Str)
    (hall : (c :: t).all isDigitChar = true) :
    atoiOpt ('-' :: c :: t) = some (-(digitsVal (c :: t) : Int)) := by
  simp only [atoiOpt]
  rw [if_neg (by decide : ¬('-' : Char) = '+'), if_pos trivial]
  rw [if_pos (show (c :: t) ≠ [] ∧ ((c :: t).all isDigitChar = true) from
    ⟨List.cons_ne_nil c t, hall⟩)]

theorem atoiOpt_digits (c : Char) (t : Str) (hplus : ¬ c = '+')
    (hminus : ¬ c = '-') (hall : (c :: t).all isDigitChar = true) :
    atoiOpt (c :: t) = some (digitsVal (c :: t) : Int) := by
  simp only [atoiOpt]
  rw [if_neg hplus, if_neg hminus]
  rw [if_pos (show ((c :: t).all isDigitChar = true) from hall)]

theorem atoiOpt_natDigits (n : Nat) : atoiOpt (natDigits n) = some (n : Int) := by
  obtain ⟨c, t, hct⟩ : ∃ c t, natDigits n = c :: t := by
    cases h : natDigits n with
    | nil => exact absurd h (natDigits_ne_nil n)
    | cons c t => exact ⟨c, t, rfl⟩
  have hcd : isDigitChar c = true :=
    mem_natDigits_isDigit n c (by rw [hct]; exact List.mem_cons_self c t)
  obtain ⟨_, hplus, hminus⟩ := isDigitChar_ne_signs c hcd
  have hall : (c :: t).all isDigitChar = true := by
    rw [← hct]; exact allDigits_natDigits n
  rw [hct, atoiOpt_digits c t hplus hminus hall, ← hct, digitsVal_natDigits]

theorem atoi_intDigits (i : Int) : atoi (intDigits i) = i := by
  by_cases h : i < 0
  · rw [intDigits, if_pos h]
    obtain ⟨c, t, hct⟩ : ∃ c t, natDigits (-i).toNat = c :: t := by
      cases hh : natDigits (-i).toNat with
      | nil => exact absurd hh (natDigits_ne_nil _)
      | cons c t => exact ⟨c, t, rfl⟩
    have hall : (c :: t).all isDigitChar = true := by
      rw [← hct]; exact allDigits_natDigits _
    show (atoiOpt ('-' :: natDigits (-i).toNat)).getD 0 = i
    rw [hct, atoiOpt_minus_digits c t hall, ← hct, digitsVal_natDigits]
    simp
    omega
  · rw [intDigits, if_neg h]
    show (atoiOpt (natDigits i.toNat)).getD 0 = i
    rw [atoiOpt_natDigits]
    simp
    omega

/-- C5: address round trip — when the encoded `view_rec` payload does not
exceed 64 bytes (so no truncation occurs), splitting it on the delimiter in
`handleCallback` recovers exactly the original
`(zoneName, page, rowIndex)` triple, for every zone name, page and row. -/
theorem decodeViewRec_encodeViewRec (z : Str) (page rowIdx : Int)
    (h : (viewRecTag ++ ':' :: (z ++ ':' ::
      (intDigits page ++ ':' :: intDigits rowIdx))).length ≤ 64) :
    decodeViewRec (encodeViewRec z page rowIdx) = some (z, page, rowIdx) := by
  have henc : encodeViewRec z page rowIdx =
      viewRecTag ++ ':' :: (z ++ ':' ::
        (intDigits page ++ ':' :: intDigits rowIdx)) := by
    simp only [encodeViewRec]
    rw [if_neg (by omega)]
  have hsplit : splitOn ':' (viewRecTag ++ ':' :: (z ++ ':' ::
      (intDigits page ++ ':' :: intDigits rowIdx)))
      = viewRecTag :: (splitOn ':' z ++ [intDigits page, intDigits rowIdx]) := by
    rw [splitOn_append_sep, splitOn_append_sep, splitOn_append_sep,
      splitOn_eq_single ':' viewRecTag (by decide),
      splitOn_eq_single ':' (intDigits page) (colon_not_mem_intDigits page),
      splitOn_eq_single ':' (intDigits rowIdx) (colon_not_mem_intDigits rowIdx)]
    simp
  have hk : 1 ≤ (splitOn ':' z).length :=
    List.length_pos.mpr (splitOn_ne_nil ':' z)
  rw [henc]
  simp only [decodeViewRec]
  rw [hsplit]
  have hlen : (viewRecTag :: (splitOn ':' z ++
      [intDigits page, intDigits rowIdx])).length =
      (splitOn ':' z).length + 3 := by simp
  rw [if_pos ⟨by simp, by rw [hlen]; omega⟩, hlen]
  have e3 : (splitOn ':' z).length + 3 - 3 = (splitOn ':' z).length := by omega
  have e2 : (splitOn ':' z).length + 3 - 2 = (splitOn ':' z).length + 1 := by
    omega
  have e1 : (splitOn ':' z).length + 3 - 1 = (splitOn ':' z).length + 2 := by
    omega
  rw [e3, e2, e1]
  have hdrop : (viewRecTag :: (splitOn ':' z ++
      [intDigits page, intDigits rowIdx])).drop 1 =
      splitOn ':' z ++ [intDigits page, intDigits rowIdx] := rfl
  rw [hdrop, List.take_left, joinSep_splitOn]
  have hgd2 : (viewRecTag :: (splitOn ':' z ++
      [intDigits page, intDigits rowIdx])).getD
      ((splitOn ':' z).length + 1) [] = intDigits page := by
    rw [List.getD_cons_succ,
      List.getD_append_right _ _ _ _ (Nat.le_refl _), Nat.sub_self]
    rfl
  have hgd1 : (viewRecTag :: (splitOn ':' z ++
      [intDigits page, intDigits rowIdx])).getD
      ((splitOn ':' z).length + 2) [] = intDigits rowIdx := by
    rw [List.getD_cons_succ,
      List.getD_append_right _ _ _ _ (by omega : (splitOn ':' z).length ≤
        (splitOn ':' z).length + 1)]
    have : (splitOn ':' z).length + 1 - (splitOn ':' z).length = 1 := by omega
    rw [this]
    rfl
  rw [hgd2, hgd1, atoi_intDigits, atoi_intDigits]

/-- Witness for C5: encoding `(example.com, page 2, row 7)` and decoding the
payload recovers the triple. -/
theorem decodeViewRec_encodeViewRec_witness :
    decodeViewRec (encodeViewRec "example.com".toList 2 7) =
      some ("example.com".toList, 2, 7) :=
  decodeViewRec_encodeViewRec "example.com".toList 2 7 (by decide)

/-- Counterexample to C6 as stated: for a 60-character zone name with page 0
and row 0, the raw payload (73 bytes) exceeds 64 bytes and is truncated, but
the result differs from the payload built from the longest zone-name
truncation that still fits within 64 bytes (the spec-modelled
`encodeViewRecSpec`), even though that longer payload does fit: the code
reserves one extra byte (`- 1`), producing a 63-byte payload when a 64-byte
one was allowed. -/
theorem encodeViewRec_truncation_counterexample :
    64 < (viewRecTag ++ ':' :: (List.replicate 60 'a' ++ ':' ::
      (intDigits 0 ++ ':' :: intDigits 0))).length ∧
    encodeViewRec (List.replicate 60 'a') 0 0 ≠
      encodeViewRecSpec (List.replicate 60 'a') 0 0 ∧
    (encodeViewRecSpec (List.replicate 60 'a') 0 0).length ≤ 64 ∧
    (encodeViewRec (List.replicate 60 'a') 0 0).length = 63 := by
  refine ⟨by decide, by decide, by decide, by decide⟩

/-- C6 as amended: when the encoded payload would exceed 64 bytes and the
non-zone part leaves a positive truncation budget, the zone-name component is
truncated from the right to the longest prefix such that the resulting
payload is at most 63 bytes — one byte below the 64-byte maximum — so the
result fits within 64 bytes but is one byte shorter than the longest payload
that would fit. -/
theorem encodeViewRec_truncation_amended (z : Str) (page rowIdx : Int)
    (hover : 64 < (viewRecTag ++ ':' :: (z ++ ':' ::
      (intDigits page ++ ':' :: intDigits rowIdx))).length)
    (hbudget : (viewRecTag ++ ':' :: ':' ::
      (intDigits page ++ ':' :: intDigits rowIdx)).length ≤ 62) :
    encodeViewRec z page rowIdx =
      viewRecTag ++ ':' :: (z.take (63 - (viewRecTag ++ ':' :: ':' ::
        (intDigits page ++ ':' :: intDigits rowIdx)).length) ++ ':' ::
        (intDigits page ++ ':' :: intDigits rowIdx)) ∧
    (encodeViewRec z page rowIdx).length = 63 ∧
    (∀ m : Nat, m ≤ z.length →
      (viewRecTag ++ ':' :: (z.take m ++ ':' ::
        (intDigits page ++ ':' :: intDigits rowIdx))).length ≤ 63 →
      m ≤ 63 - (viewRecTag ++ ':' :: ':' ::
        (intDigits page ++ ':' :: intDigits rowIdx)).length) := by
  have hfix : (viewRecTag ++ ':' :: ':' ::
      (intDigits page ++ ':' :: intDigits rowIdx)).length =
      11 + (intDigits page).length + (intDigits rowIdx).length := by
    simp [viewRecTag]
    omega
  have hraw : (viewRecTag ++ ':' :: (z ++ ':' ::
      (intDigits page ++ ':' :: intDigits rowIdx))).length =
      11 + z.length + (intDigits page).length + (intDigits rowIdx).length := by
    simp [viewRecTag]
    omega
  have hzlen : 63 - (11 + (intDigits page).length + (intDigits rowIdx).length)
      < z.length := by
    rw [hraw] at hover
    omega
  rw [hfix] at hbudget
  have henc : encodeViewRec z page rowIdx =
      viewRecTag ++ ':' :: (z.take (63 - (11 + (intDigits page).length +
        (intDigits rowIdx).length)) ++ ':' ::
        (intDigits page ++ ':' :: intDigits rowIdx)) := by
    simp only [encodeViewRec]
    rw [if_pos hover, if_pos]
    · have hidx : ((64 : Int) - ((viewRecTag ++ ':' :: ':' ::
          (intDigits page ++ ':' :: intDigits rowIdx)).length : Int)
          - 1).toNat =
          63 - (11 + (intDigits page).length + (intDigits rowIdx).length) := by
        rw [hfix]; omega
      rw [hidx]
    · constructor
      · rw [hfix]; omega
      · rw [hfix]
        rw [hraw] at hover
        omega
  refine ⟨by rw [henc, hfix], ?_, ?_⟩
  · rw [henc]
    have htake : (z.take (63 - (11 + (intDigits page).length +
        (intDigits rowIdx).length))).length =
        63 - (11 + (intDigits page).length + (intDigits rowIdx).length) := by
      rw [List.length_take]
      omega
    simp [viewRecTag, htake]
    omega
  · intro m hm hfit
    have : (viewRecTag ++ ':' :: (z.take m ++ ':' ::
        (intDigits page ++ ':' :: intDigits rowIdx))).length =
        11 + m + (intDigits page).length + (intDigits rowIdx).length := by
      have : (z.take m).length = m := by rw [List.length_take]; omega
      simp [viewRecTag, this]
      omega
    rw [this] at hfit
    rw [hfix]
    omega

/-- Witness for the amended C6: the concrete over-long input from the
counterexample lands on a 63-byte payload. -/
theorem encodeViewRec_truncation_amended_witness :
    (encodeViewRec (List.replicate 60 'a') 0 0).length = 63 :=
  (encodeViewRec_truncation_amended (List.replicate 60 'a') 0 0
    (by decide) (by decide)).2.1

/-- C8: a typed TTL string that fails to parse makes `handleInputRecordTTL`
reply with the invalid-TTL error and leave the user state — current step and
accumulated fields — completely unchanged; no ttl value is stored. -/
theorem handleInputRecordTTL_invalid (st : UserState) (ttlStr : Str)
    (h : atoiOpt ttlStr = none) :
    handleInputRecordTTL st ttlStr = (st, .invalidTTLPrompt) := by
  unfold handleInputRecordTTL
  rw [h]

/-- Witness for C8: the non-numeric input "abc" at the TTL step leaves the
state untouched and renders the error prompt. -/
theorem handleInputRecordTTL_invalid_witness :
    handleInputRecordTTL ⟨Step.inputRecordTTL, []⟩ "abc".toList =
      (⟨Step.inputRecordTTL, []⟩, .invalidTTLPrompt) :=
  handleInputRecordTTL_invalid ⟨Step.inputRecordTTL, []⟩ "abc".toList rfl

/-- C9: after `startEditRecord` stores the freshly-fetched record, each
single-field edit action issues exactly one full-record update whose
untouched fields equal the fetched record's current values and whose one
edited field is the only change: toggling proxied keeps the record's content
and TTL and negates proxied; editing content keeps TTL and proxied; editing
TTL keeps content and proxied. This holds for every prior wizard state
`st0`, so no stale wizard data leaks into the update. -/
theorem editFlow_reads_fresh_record (backend : Backend)
    (zoneName recordName : Str) (record : DNSRecord) (st0 : UserState)
    (_hget : GetRecord backend zoneName recordName = .ok record) :
    handleToggleProxied (startEditRecord st0 zoneName recordName record) =
      some ({ zoneName := zoneName, recordID := record.id, name := recordName,
              type := record.type, content := record.content,
              ttl := record.ttl, proxied := !record.proxied,
              priority := none },
            setData (startEditRecord st0 zoneName recordName record)
              "edit_current_proxied".toList (.bool (!record.proxied))) ∧
    (∀ newContent : Str,
      handleEditRecordContent (startEditRecord st0 zoneName recordName record)
          newContent =
        some ({ zoneName := zoneName, recordID := record.id,
                name := recordName, type := record.type,
                content := newContent, ttl := record.ttl,
                proxied := record.proxied, priority := none },
              clearedState)) ∧
    (∀ (ttlStr : Str) (ttl : Int), atoiOpt ttlStr = some ttl →
      handleEditRecordTTL (startEditRecord st0 zoneName recordName record)
          ttlStr =
        some ({ zoneName := zoneName, recordID := record.id,
                name := recordName, type := record.type,
                content := record.content, ttl := ttl,
                proxied := record.proxied, priority := none },
              clearedState)) := by
  refine ⟨rfl, fun newContent => rfl, fun ttlStr ttl h => ?_⟩
  unfold handleEditRecordTTL
  rw [h]
  rfl

/-- Witness for C9: with the concrete backend after the example create, the
toggle-proxied action on the fetched `www.example.com` record issues the
full-record update carrying that record's content and TTL unchanged. -/
theorem editFlow_reads_fresh_record_witness :
    handleToggleProxied (startEditRecord clearedState "example.com".toList
        "www.example.com".toList exampleCreated) =
      some ({ zoneName := "example.com".toList, recordID := exampleCreated.id,
              name := "www.example.com".toList, type := exampleCreated.type,
              content := exampleCreated.content, ttl := exampleCreated.ttl,
              proxied := !exampleCreated.proxied, priority := none },
            setData (startEditRecord clearedState "example.com".toList
                "www.example.com".toList exampleCreated)
              "edit_current_proxied".toList
              (.bool (!exampleCreated.proxied))) :=
  (editFlow_reads_fresh_record exampleBackendAfter "example.com".toList
    "www.example.com".toList exampleCreated clearedState (by rfl)).1

/-- Witness for C4: in a 2-item list, page 0 row 5 is out of range and fails
with RecordNotFound; page 0 row 1 shows the element at index 1. -/
theorem showRecordDetailByIndex_spec_witness :
    showRecordDetailByIndex (List.replicate 2 default) 0 5 =
      .error .recordNotFound ∧
    showRecordDetailByIndex (List.replicate 2 default) 0 1 =
      .ok ((List.replicate 2 (default : DNSRecord)).get ⟨1, by decide⟩) :=
  ⟨(showRecordDetailByIndex_spec (List.replicate 2 default) 0 5).1 (by decide),
   (showRecordDetailByIndex_spec (List.replicate 2 default) 0 1).2 (by decide)⟩

end CfDnsBot
